import Mathlib

/-!
# Verification of the XOSS Database Browser core (src/v5.py)

Shallow embedding of the directory-listing / resumable-download core of
`v5.py` (class `AstronomyDBBrowser`), together with theorems settling the
frozen claims about it.  Each definition is translated from the Python
source; machine-level library calls (`float`, `urllib.parse.unquote`,
`str.split`) are modelled by executable Lean functions that agree with the
Python behaviour on the inputs this program produces.
-/

namespace XOSS

/-- Whether `needle` occurs as a contiguous substring of `hay` (model of Python's
`in` operator on strings, over explicit character lists). -/
def containsSub (needle hay : List Char) : Bool :=
  hay.tails.any (fun t => needle.isPrefixOf t)

/-- Model of Python `str.lower()` for the ASCII range (the only letters the
skip filter compares against). -/
def pyLower (s : String) : List Char := s.data.map Char.toLower

/-- Function `_should_skip_item(name, href)` from v5.py lines 545-554: an entry is
skipped when its name is `.` or `..`; or its href is `../`, `..`, `./` or
`.`; or its href starts with `../` and is longer than 3 characters; or its
lower-cased name contains `parent directory`; or its name contains
`上级目录`. -/
def should_skip_item (name href : String) : Bool :=
  (name == "." || name == "..") ||
  (href == "../" || href == ".." || href == "./" || href == ".") ||
  ("../".data.isPrefixOf href.data && decide (3 < href.data.length)) ||
  containsSub "parent directory".data (pyLower name) ||
  containsSub "上级目录".data name.data

/-- The skip predicate exactly as the claim words it: the *name or the href*
equal to any of `.`, `..`, `./`, `../`; href beginning with `../` and longer
than 3 characters; name containing `parent directory` case-insensitively;
name containing `上级目录`. -/
def claimed_skip_item (name href : String) : Bool :=
  (name == "." || name == ".." || name == "./" || name == "../") ||
  (href == "." || href == ".." || href == "./" || href == "../") ||
  ("../".data.isPrefixOf href.data && decide (3 < href.data.length)) ||
  containsSub "parent directory".data (pyLower name) ||
  containsSub "上级目录".data name.data

/-! ## Directory cache (v5.py lines 424-450, 466-481, 134-148) -/

/-- One parsed listing entry as stored in the cache and rendered in the
tree (the dict built at v5.py lines 521-528). -/
structure DirItem where
  name : String
  href : String
  date : String
  size : String
  file_type : String
  full_url : String
deriving DecidableEq

/-- One value of `self.directory_cache`.  `cache_time` is held in seconds
(the code stores a formatted timestamp and re-parses it; the subtraction
`(datetime.now() - cache_time).total_seconds()` is modelled directly on
integer seconds).  Entries loaded from a legacy file may lack the
`cache_time` key, hence the `Option`. -/
structure CacheEntry where
  dir_items : List DirItem
  cache_time : Option Int
deriving DecidableEq

/-- The cache dict: an association list url ↦ entry. -/
def DirectoryCache := List (String × CacheEntry)

/-- Function `is_cache_valid(url)` from v5.py lines 445-450: false when the url is
absent or the entry has no `cache_time`; otherwise true iff the elapsed
seconds since `cache_time` are strictly below 86400 (24 hours). -/
def is_cache_valid (cache : DirectoryCache) (now : Int) (url : String) : Bool :=
  match cache.lookup url with
  | none => false
  | some e =>
    match e.cache_time with
    | none => false
    | some t => decide (now - t < 86400)

/-- The cache consultation performed by `_fetch_directory_contents`
(v5.py lines 469-480): on a valid entry return its items (a hit) together
with the cache, which the lookup leaves untouched; otherwise a miss, again
leaving the cache untouched (an expired entry is not deleted here — only
`cleanup_expired_cache` removes entries). -/
def cache_get (cache : DirectoryCache) (now : Int) (url : String) :
    Option (List DirItem) × DirectoryCache :=
  if is_cache_valid cache now url then
    (((cache.lookup url).map (fun e => e.dir_items)), cache)
  else
    (none, cache)

/-! ## History ledger (v5.py lines 1060-1073, 1243-1262) -/

/-- Constant `self.MAX_HISTORY` (v5.py line 24). -/
def MAX_HISTORY : Nat := 1000

/-- One element of `self.download_history` (v5.py lines 1062-1068). -/
structure DownloadRecord where
  url : String
  local_path : String
  name : String
  status : String
  time : String
deriving DecidableEq

/-- Function `add_download_record` (v5.py lines 1060-1073): insert the new record at
the front, then truncate to the first `MAX_HISTORY` records when the length
exceeds the cap. -/
def add_download_record (history : List DownloadRecord) (r : DownloadRecord) :
    List DownloadRecord :=
  if MAX_HISTORY < (r :: history).length then (r :: history).take MAX_HISTORY
  else r :: history

/-- Function `delete_record` (v5.py lines 1243-1252): remove the record at an index. -/
def delete_record (history : List DownloadRecord) (i : Nat) : List DownloadRecord :=
  history.eraseIdx i

/-- Function `clear_history` (v5.py lines 1255-1262): drop every record. -/
def clear_history (_history : List DownloadRecord) : List DownloadRecord := []

/-- A full ledger of 1000 identical records (concrete witness data). -/
def fullHistory : List DownloadRecord :=
  List.replicate 1000 { url := "u", local_path := "p", name := "n",
                        status := "成功", time := "t" }

/-- A fresh record (concrete witness data). -/
def newRecord : DownloadRecord :=
  { url := "v", local_path := "q", name := "m", status := "失败", time := "s" }

/-! ## Size and date-field parsing (v5.py lines 556-570 and 634-649) -/

/-- Numeric value of a decimal digit character. -/
def digitVal (c : Char) : Nat := c.toNat - '0'.toNat

/-- Natural number denoted by a list of decimal digits. -/
def natOfDigits (l : List Char) : Nat :=
  l.foldl (fun a c => a * 10 + digitVal c) 0

/-- Exact-rational model of Python's builtin `float(str)` on the plain
decimal literals this program feeds it (`"2"`, `"1.5"`, `"12288"` …): an
optional single `.` between two digit groups, at least one digit in all.
Any other shape is `none`, modelling the `ValueError` that the program's
`try/except` turns into `0`.  The program never produces literals needing
the wider `float` grammar (exponents, signs, `inf`/`nan`), and every value
here is exactly representable, so the rational model is exact. -/
def pyFloat? (s : List Char) : Option ℚ :=
  match s.splitOn '.' with
  | [ip] =>
    if !ip.isEmpty && ip.all Char.isDigit then some (natOfDigits ip : ℚ) else none
  | [ip, fp] =>
    if (!ip.isEmpty || !fp.isEmpty) && ip.all Char.isDigit && fp.all Char.isDigit then
      some ((natOfDigits ip : ℚ) + (natOfDigits fp : ℚ) / ((10 : ℚ) ^ fp.length))
    else none
  | _ => none

/-- Model of Python `str.split()` (no argument): split on whitespace runs,
discarding empty pieces. -/
def pySplit (s : List Char) : List (List Char) :=
  (s.splitOnP Char.isWhitespace).filter (fun t => !t.isEmpty)

/-- Model of Python `str.strip()` (no argument): drop whitespace from both
ends. -/
def pyStrip (s : List Char) : List Char :=
  ((s.dropWhile Char.isWhitespace).reverse.dropWhile Char.isWhitespace).reverse

/-- Function `_parse_file_info` (v5.py lines 556-570), abstracted over the sibling
text that follows the anchor tag (`none` models a missing sibling node).
Returns the `(date, size)` pair, both defaulting to `"未知"` (unknown); a
literal `-` size token maps to `"未知"`. -/
def parse_file_info (sibling : Option String) : String × String :=
  match sibling with
  | none => ("未知", "未知")
  | some raw =>
    let s := pyStrip raw.data
    if s.isEmpty then ("未知", "未知")
    else
      let parts := pySplit s
      if 3 ≤ parts.length then
        (String.mk (List.intercalate " ".data (parts.take 2)),
         if parts.getD 2 [] == "-".data then "未知" else String.mk (parts.getD 2 []))
      else ("未知", "未知")

/-- Model of Python `str.endswith(c)` for a one-character suffix. -/
def endsWithChar (s : List Char) (c : Char) : Bool := s.getLast? == some c

/-- Function `parse_size` from `sort_column` (v5.py lines 634-649): `"未知"` sorts
as 0; a `K`/`M`/`G` suffix scales the numeric prefix (the string minus its
last character) by the corresponding power of 1024; otherwise the text is
parsed as a plain number; any parse failure (the `except` arm) yields 0. -/
def parse_size (size_str : String) : ℚ :=
  if size_str == "未知" then 0
  else if endsWithChar size_str.data 'K' then
    match pyFloat? size_str.data.dropLast with
    | some v => v * 1024
    | none => 0
  else if endsWithChar size_str.data 'M' then
    match pyFloat? size_str.data.dropLast with
    | some v => v * 1024 * 1024
    | none => 0
  else if endsWithChar size_str.data 'G' then
    match pyFloat? size_str.data.dropLast with
    | some v => v * 1024 * 1024 * 1024
    | none => 0
  else
    match pyFloat? size_str.data with
    | some v => v
    | none => 0

/-! ## Percent-decoding and filename derivation (v5.py lines 751-769, 845-846) -/

/-- Value of a hexadecimal digit character, `none` otherwise. -/
def hexVal? (c : Char) : Option Nat :=
  if '0' ≤ c ∧ c ≤ '9' then some (c.toNat - '0'.toNat)
  else if 'a' ≤ c ∧ c ≤ 'f' then some (c.toNat - 'a'.toNat + 10)
  else if 'A' ≤ c ∧ c ≤ 'F' then some (c.toNat - 'A'.toNat + 10)
  else none

/-- Model of `urllib.parse.unquote` on single-byte percent escapes: a `%`
followed by two hex digits becomes the character with that code, an invalid
escape is copied verbatim.  (Multi-byte UTF-8 escape sequences, which Python
additionally decodes, do not occur in the claims settled here.) -/
def unquote : List Char → List Char
  | [] => []
  | '%' :: h1 :: h2 :: rest2 =>
    match hexVal? h1, hexVal? h2 with
    | some a, some b => Char.ofNat (16 * a + b) :: unquote rest2
    | _, _ => '%' :: unquote (h1 :: h2 :: rest2)
  | c :: rest => c :: unquote rest

/-- Derivation `file_name = urllib.parse.unquote(file_url.split('/')[-1])`
(v5.py line 845). -/
def derive_file_name (file_url : String) : String :=
  String.mk (unquote ((file_url.data.splitOn '/').getLastD []))

/-- Model of `os.path.join(a, b)` for the relative second components this
program produces. -/
def path_join (a b : String) : String := a ++ "/" ++ b

/-- Constant `self.INVALID_CHARS` (v5.py line 21). -/
def INVALID_CHARS : List Char := "/\\:*?\"<>|".data

/-- The sanitation loop `for c in self.INVALID_CHARS: dir_name =
dir_name.replace(c, '_')` (v5.py lines 760-761 and 952-953). -/
def sanitize_name (s : List Char) : List Char :=
  INVALID_CHARS.foldl (fun acc c => acc.map (fun x => if x = c then '_' else x)) s

/-- Derivation `url_parts = [p for p in file_url.rstrip('/').split('/') if p]`
(v5.py line 753). -/
def url_segments (file_url : String) : List (List Char) :=
  (((file_url.data.reverse.dropWhile (· == '/')).reverse).splitOn '/').filter
    (fun p => !p.isEmpty)

/-- Destination directory chosen by the File branch of `_download_item`
(v5.py lines 751-767): with at least two non-empty slash-separated URL
segments, a grouping folder named by the sanitized, percent-decoded
second-to-last segment under the download directory; otherwise the download
directory itself. -/
def file_task_dest (download_dir file_url : String) : String :=
  if 2 ≤ (url_segments file_url).length then
    path_join download_dir
      (String.mk (sanitize_name (unquote ((url_segments file_url).reverse.getD 1 []))))
  else download_dir

/-- The destination folder name as the claim words it: the second-to-last
path segment, percent-decoded, with every illegal filesystem character
replaced by `_` in a single pass. -/
def spec_group_name (file_url : String) : List Char :=
  (unquote ((url_segments file_url).getD ((url_segments file_url).length - 2) [])).map
    (fun c => if INVALID_CHARS.contains c then '_' else c)

/-! ## Resumable download engine (v5.py lines 842-927) -/

/-- Function `_is_file_complete(file_url, local_size)` (v5.py lines 920-927).  The
HEAD probe outcome is `none` when the request raises, otherwise
`some contentLength` where `contentLength = none` models a response without
a `Content-Length` header (which `headers.get('Content-Length', 0)` turns
into 0).  The 1KB tolerance subtraction is signed, as in Python. -/
def is_file_complete (head : Option (Option Nat)) (local_size : Nat) : Bool :=
  match head with
  | none => false
  | some cl => decide (((cl.getD 0 : Nat) : Int) - 1024 ≤ (local_size : Int))

/-- Whether the shared cancellation flag reads true at poll index `i`, for a
flag that is set (if ever) just before poll `k` and never reset mid-batch
(v5.py lines 780, 786). -/
def cancelAt (cancelFrom : Option Nat) (i : Nat) : Bool :=
  match cancelFrom with
  | none => false
  | some k => decide (k ≤ i)

/-- The streaming loop of `_download_file` (v5.py lines 884-891): before
each 1MB read the cancellation flag is polled (a set flag raises `下载已取消`),
an empty chunk breaks the loop, any other chunk is appended.  Returns the
bytes written and whether the loop ended by cancellation. -/
def stream_chunks (cancelFrom : Option Nat) : List Nat → Nat → Nat → Nat × Bool
  | chunks, poll, written =>
    if cancelAt cancelFrom poll then (written, true)
    else
      match chunks with
      | [] => (written, false)
      | c :: rest =>
        if c = 0 then (written, false)
        else stream_chunks cancelFrom rest (poll + 1) (written + c)

/-- Terminal state of one `_download_file` call: normal return, an exception
whose message does not contain `已取消`, or the cancellation exception. -/
inductive DLOutcome where
  | success
  | failure
  | cancelled
deriving DecidableEq

/-- External world one `_download_file` call runs against. -/
structure DownloadEnv where
  /-- size of the already-present local file, `none` when absent -/
  localSize : Option Nat
  /-- HEAD probe outcome for the pre-transfer completeness check -/
  headPre : Option (Option Nat)
  /-- GET response chunk sizes; `none` models the GET itself raising -/
  body : Option (List Nat)
  /-- HEAD probe outcome for the post-transfer completeness check -/
  headPost : Option (Option Nat)
  /-- first poll index at which the cancellation flag reads true -/
  cancelFrom : Option Nat

/-- Observable effects of one `_download_file` call. -/
structure DLResult where
  outcome : DLOutcome
  /-- size of the local file when the call ends -/
  finalSize : Nat
  /-- whether a GET request was issued -/
  getIssued : Bool
  /-- Holds `some P` when the GET carried `Range: bytes=P-` -/
  rangeHeader : Option Nat
  /-- Holds `some true` = opened `ab`, `some false` = opened `wb`, `none` = never opened -/
  openedAppend : Option Bool
  /-- The `add_download_record` call made, as (status, local_path); `none` = no record -/
  record : Option (String × String)
  /-- bytes transferred by this call -/
  bytesWritten : Nat
deriving DecidableEq

/-- Function `_download_file(file_url, save_dir)` (v5.py lines 842-918): resume
offset from the existing file; HEAD-based early exit recording Success with
zero transfer; otherwise a GET with a `Range` header when resuming, append
vs fresh-write open mode, the polled streaming loop, the post-transfer
completeness check, and the history record for every terminal outcome
except cancellation. -/
def download_file (file_url save_dir : String) (env : DownloadEnv) : DLResult :=
  let save_path := path_join save_dir (derive_file_name file_url)
  let resume := env.localSize.getD 0
  if env.localSize.isSome && is_file_complete env.headPre resume then
    { outcome := .success, finalSize := resume, getIssued := false,
      rangeHeader := none, openedAppend := none,
      record := some ("成功", save_path), bytesWritten := 0 }
  else
    let range := if 0 < resume then some resume else none
    let mode := decide (0 < resume)
    match env.body with
    | none =>
      { outcome := .failure, finalSize := resume, getIssued := true,
        rangeHeader := range, openedAppend := some mode,
        record := some ("失败", ""), bytesWritten := 0 }
    | some chunks =>
      match stream_chunks env.cancelFrom chunks 0 0 with
      | (w, true) =>
        { outcome := .cancelled, finalSize := resume + w, getIssued := true,
          rangeHeader := range, openedAppend := some mode,
          record := none, bytesWritten := w }
      | (w, false) =>
        if is_file_complete env.headPost (resume + w) then
          { outcome := .success, finalSize := resume + w, getIssued := true,
            rangeHeader := range, openedAppend := some mode,
            record := some ("成功", save_path), bytesWritten := w }
        else
          { outcome := .failure, finalSize := resume + w, getIssued := true,
            rangeHeader := range, openedAppend := some mode,
            record := some ("失败", ""), bytesWritten := w }

/-! ## Batch orchestrator (v5.py lines 774-841) -/

/-- The triple `_download_item` returns through its future (v5.py lines
750, 770, 772): `ok name` for `(True, name, None)`, `err name msg` for
`(False, name, msg)` — a cooperative cancellation surfaces here as
`err name "下载已取消"` because `_download_item` catches every exception. -/
inductive TaskResult where
  | ok (name : String)
  | err (name msg : String)
deriving DecidableEq

/-- A result produced by a task that was cancelled mid-flight. -/
def is_cancel_result : TaskResult → Bool
  | .ok _ => false
  | .err _ msg => containsSub "已取消".data msg.data

/-- The submission loop (v5.py lines 796-800): before submitting each task
the cancellation flag is polled; a set flag breaks the loop. -/
def submit_tasks (cancelFrom : Option Nat) : List α → Nat → List α
  | [], _ => []
  | x :: xs, i =>
    if cancelAt cancelFrom i then [] else x :: submit_tasks cancelFrom xs (i + 1)

/-- The result-tally loop (v5.py lines 803-821): before handling each
completed future the cancellation flag is polled; a set flag breaks the
loop; otherwise the outcome is tallied into `(success, fail, fail_list)`. -/
def process_results (cancelFrom : Option Nat) : List TaskResult → Nat → Nat × Nat × List String
  | [], _ => (0, 0, [])
  | r :: rest, i =>
    if cancelAt cancelFrom i then (0, 0, [])
    else
      let t := process_results cancelFrom rest (i + 1)
      match r with
      | .ok _ => (t.1 + 1, t.2.1, t.2.2)
      | .err name msg => (t.1, t.2.1 + 1, (name ++ ": " ++ msg) :: t.2.2)

/-- Number of polls until the flag is first seen set, starting at poll
index `i`, capped at `n`. -/
def firstCancel (cancelFrom : Option Nat) (i n : Nat) : Nat :=
  match n with
  | 0 => 0
  | m + 1 => if cancelAt cancelFrom i then 0 else firstCancel cancelFrom (i + 1) m + 1

/-- Successful results in a tally prefix. -/
def countOk : List TaskResult → Nat
  | [] => 0
  | .ok _ :: rest => countOk rest + 1
  | .err _ _ :: rest => countOk rest

/-- Failed results in a tally prefix. -/
def countErr : List TaskResult → Nat
  | [] => 0
  | .ok _ :: rest => countErr rest
  | .err _ _ :: rest => countErr rest + 1

/-- Failure messages collected from a tally prefix. -/
def failMsgs : List TaskResult → List String
  | [] => []
  | .ok _ :: rest => failMsgs rest
  | .err name msg :: rest => (name ++ ": " ++ msg) :: failMsgs rest

/-! ## Shared lemmas -/

theorem add_download_record_shape (h : List DownloadRecord) (r : DownloadRecord) :
    ∃ k, add_download_record h r = r :: h.take k := by
  unfold add_download_record
  split
  · refine ⟨MAX_HISTORY - 1, ?_⟩
    show (r :: h).take MAX_HISTORY = r :: h.take (MAX_HISTORY - 1)
    rfl
  · exact ⟨h.length, by simp⟩

/-! ## Claim theorems -/

/-- C5, counterexample: the claim as stated also skips an entry whose *name*
is `../` (or `./`); the code keeps such an entry when its href is harmless,
e.g. name `../`, href `x`. -/
theorem should_skip_item_claim_false :
    should_skip_item "../" "x" = false ∧
    claimed_skip_item "../" "x" = true ∧
    ¬ (∀ name href : String, should_skip_item name href = claimed_skip_item name href) := by
  refine ⟨by decide, by decide, fun hall => ?_⟩
  have h := hall "../" "x"
  rw [show should_skip_item "../" "x" = false from by decide,
    show claimed_skip_item "../" "x" = true from by decide] at h
  exact Bool.false_ne_true h

/-- C5 (amended): a parsed listing entry is skipped exactly when its name
equals `.` or `..`; or its href equals `.`, `..`, `./` or `../`; or its
href begins with `../` and is longer than 3 characters; or its name
contains `parent directory` case-insensitively; or its name contains
`上级目录`.  All other entries are kept. -/
theorem should_skip_item_spec (name href : String) :
    should_skip_item name href = true ↔
      (name = "." ∨ name = ".." ∨
       href = "." ∨ href = ".." ∨ href = "./" ∨ href = "../" ∨
       ("../".data.isPrefixOf href.data = true ∧ 3 < href.data.length) ∨
       containsSub "parent directory".data (pyLower name) = true ∨
       containsSub "上级目录".data name.data = true) := by
  simp only [should_skip_item, Bool.or_eq_true, Bool.and_eq_true, beq_iff_eq,
    decide_eq_true_eq]
  tauto

/-- C5 witness. -/
theorem should_skip_item_spec_witness : should_skip_item "." "f" = true :=
  (should_skip_item_spec "." "f").mpr (Or.inl rfl)

/-- C6: the cache lookup is a hit iff an entry with a fetch timestamp
exists for the URL and strictly less than 86400 seconds have elapsed; at
exactly 86400 seconds it is a miss; a URL without an entry is always a
miss; and the lookup never modifies (in particular never deletes from) the
cache. -/
theorem cache_ttl (cache : DirectoryCache) (now t : Int) (url : String) (e : CacheEntry)
    (hfound : cache.lookup url = some e) (ht : e.cache_time = some t) :
    (is_cache_valid cache now url = true ↔ now - t < 86400) ∧
    ((cache_get cache now url).1.isSome = true ↔ now - t < 86400) ∧
    (now - t = 86400 → is_cache_valid cache now url = false ∧
      (cache_get cache now url).1 = none) ∧
    (∀ url' : String, cache.lookup url' = none →
      is_cache_valid cache now url' = false ∧ (cache_get cache now url').1 = none) ∧
    (∀ url' : String, (cache_get cache now url').2 = cache) := by
  have hv : is_cache_valid cache now url = decide (now - t < 86400) := by
    simp [is_cache_valid, hfound, ht]
  refine ⟨?_, ?_, ?_, ?_, ?_⟩
  · simp [hv]
  · by_cases hlt : now - t < 86400
    · simp [cache_get, hv, hlt, hfound]
    · simp [cache_get, hv, hlt]
  · intro hb
    have hnlt : ¬ (now - t < 86400) := by omega
    constructor
    · simp [hv, hnlt]
    · simp [cache_get, hv, hnlt]
  · intro url' hnone
    have : is_cache_valid cache now url' = false := by
      simp [is_cache_valid, hnone]
    exact ⟨this, by simp [cache_get, this]⟩
  · intro url'
    unfold cache_get
    split <;> rfl

/-- C6 witness. -/
theorem cache_ttl_witness :
    ([("u", ({ dir_items := [], cache_time := some 100 } : CacheEntry))].lookup "u" =
        some ({ dir_items := [], cache_time := some 100 } : CacheEntry)) ∧
    (is_cache_valid [("u", { dir_items := [], cache_time := some 100 })] 200 "u" = true ↔
      (200 : Int) - 100 < 86400) :=
  ⟨by decide,
   (cache_ttl [("u", { dir_items := [], cache_time := some 100 })] 200 100 "u"
      { dir_items := [], cache_time := some 100 } (by decide) rfl).1⟩

/-- C7: inserting into a full ledger of 1000 records yields exactly 1000
records, the oldest dropped and the new record at the front; and for every
mutation — insertion, deletion, clearing — the newest-first order of the
surviving records and the 1000-record bound are preserved. -/
theorem history_cap (h : List DownloadRecord) (r : DownloadRecord)
    (hlen : h.length = MAX_HISTORY) :
    (add_download_record h r).length = MAX_HISTORY ∧
    add_download_record h r = r :: h.take (MAX_HISTORY - 1) ∧
    (∀ h' : List DownloadRecord, (add_download_record h' r).head? = some r) ∧
    (∀ h' : List DownloadRecord, (add_download_record h' r).tail <+: h') ∧
    (∀ h' : List DownloadRecord, h'.length ≤ MAX_HISTORY →
      (add_download_record h' r).length ≤ MAX_HISTORY) ∧
    (∀ (h' : List DownloadRecord) (i : Nat), h'.length ≤ MAX_HISTORY →
      (delete_record h' i).Sublist h' ∧ (delete_record h' i).length ≤ MAX_HISTORY) ∧
    (clear_history h).length ≤ MAX_HISTORY := by
  have hfull : add_download_record h r = r :: h.take (MAX_HISTORY - 1) := by
    unfold add_download_record
    rw [if_pos (by simp [hlen])]
    show (r :: h).take MAX_HISTORY = r :: h.take (MAX_HISTORY - 1)
    rfl
  refine ⟨?_, hfull, ?_, ?_, ?_, ?_, by simp [clear_history]⟩
  · rw [hfull]
    simp [hlen, MAX_HISTORY]
  · intro h'
    obtain ⟨k, hk⟩ := add_download_record_shape h' r
    rw [hk]; rfl
  · intro h'
    obtain ⟨k, hk⟩ := add_download_record_shape h' r
    rw [hk]
    exact List.take_prefix k h'
  · intro h' hle
    unfold add_download_record
    split
    · simp
    · next hgt => omega
  · intro h' i hle
    have hsub : (delete_record h' i).Sublist h' := List.eraseIdx_sublist h' i
    exact ⟨hsub, le_trans hsub.length_le hle⟩

/-- C7 witness. -/
theorem history_cap_witness :
    fullHistory.length = MAX_HISTORY ∧
    (add_download_record fullHistory newRecord).length = MAX_HISTORY :=
  ⟨List.length_replicate 1000 _,
   (history_cap fullHistory newRecord (List.length_replicate 1000 _)).1⟩

/-- C8: the size parsing used for sorting maps a `-` token to the unknown
sentinel `未知` (which sorts as 0), `2K` to 2048, `1.5M` to 1572864, `1G` to
1073741824, and any text none of whose branches parses as a number to 0;
being a total function, it never raises. -/
theorem parse_size_spec :
    (∀ raw : String, 3 ≤ (pySplit (pyStrip raw.data)).length →
        (pySplit (pyStrip raw.data)).getD 2 [] = "-".data →
        (parse_file_info (some raw)).2 = "未知") ∧
    parse_size "未知" = 0 ∧
    parse_size "2K" = 2048 ∧
    parse_size "1.5M" = 1572864 ∧
    parse_size "1G" = 1073741824 ∧
    (∀ s : String, s ≠ "未知" → pyFloat? s.data.dropLast = none →
        pyFloat? s.data = none → parse_size s = 0) := by
  refine ⟨?_, ?_, ?_, ?_, ?_, ?_⟩
  · intro raw h3 hdash
    rcases hstr : pyStrip raw.data with _ | ⟨c, cs⟩
    · rw [hstr] at h3
      norm_num [pySplit, List.splitOnP, List.splitOnP.go] at h3
    · rw [hstr] at h3 hdash
      simp only [parse_file_info, hstr]
      rw [if_neg (by simp), if_pos h3, if_pos (by simpa [List.getD] using hdash)]
  · simp [parse_size]
  · simp +decide [parse_size, pyFloat?, endsWithChar, List.splitOn, List.splitOnP,
      List.splitOnP.go, natOfDigits, digitVal]
    norm_num
  · simp +decide [parse_size, pyFloat?, endsWithChar, List.splitOn, List.splitOnP,
      List.splitOnP.go, natOfDigits, digitVal]
    norm_num
  · simp +decide [parse_size, pyFloat?, endsWithChar, List.splitOn, List.splitOnP,
      List.splitOnP.go, natOfDigits, digitVal]
    norm_num
  · intro s hs h1 h2
    have hbeq : (s == "未知") = false := beq_eq_false_iff_ne.mpr hs
    unfold parse_size
    rw [if_neg (by simp [hbeq])]
    split_ifs <;> simp [h1, h2]

/-- C8 witness. -/
theorem parse_size_spec_witness :
    (3 ≤ (pySplit (pyStrip " 01-Jan-2024 10:00 - ".data)).length ∧
      (parse_file_info (some " 01-Jan-2024 10:00 - ")).2 = "未知") ∧
    (("abc" : String) ≠ "未知" ∧ parse_size "abc" = 0) :=
  ⟨⟨by decide, parse_size_spec.1 " 01-Jan-2024 10:00 - " (by decide) (by decide)⟩,
   ⟨by decide, parse_size_spec.2.2.2.2.2 "abc" (by decide) (by decide) (by decide)⟩⟩

/-- C1: when the target file exists locally with size at least the remote
Content-Length (default 0) minus the 1024-byte tolerance, `_download_file`
issues no GET, transfers zero bytes, never opens (hence never truncates)
the local file, records Success for it with the local path, and returns. -/
theorem download_skip_when_complete (file_url save_dir : String) (env : DownloadEnv)
    (n : Nat) (cl : Option Nat)
    (hloc : env.localSize = some n)
    (hhead : env.headPre = some cl)
    (htol : ((cl.getD 0 : Nat) : Int) - 1024 ≤ (n : Int)) :
    (download_file file_url save_dir env).getIssued = false ∧
    (download_file file_url save_dir env).bytesWritten = 0 ∧
    (download_file file_url save_dir env).outcome = .success ∧
    (download_file file_url save_dir env).record =
      some ("成功", path_join save_dir (derive_file_name file_url)) ∧
    (download_file file_url save_dir env).finalSize = n ∧
    (download_file file_url save_dir env).openedAppend = none := by
  have hc : is_file_complete env.headPre n = true := by
    simp [is_file_complete, hhead]
    omega
  simp [download_file, hloc, hc]

/-- C1 witness: a 5000-byte local file against a 5500-byte remote within
the tolerance window recorded complete without transfer. -/
theorem download_skip_when_complete_witness :
    ((5500 : Nat) : Int) - 1024 ≤ ((5000 : Nat) : Int) ∧
    (download_file "http://h/d/f.bin" "D"
      { localSize := some 5000, headPre := some (some 5500), body := some [1, 2],
        headPost := some (some 5500), cancelFrom := none }).getIssued = false :=
  ⟨by norm_num,
   (download_skip_when_complete "http://h/d/f.bin" "D"
     { localSize := some 5000, headPre := some (some 5500), body := some [1, 2],
       headPost := some (some 5500), cancelFrom := none }
     5000 (some 5500) rfl rfl (by norm_num)).1⟩

theorem stream_chunks_no_cancel (chunks : List Nat) (poll w : Nat) :
    (stream_chunks none chunks poll w).2 = false := by
  induction chunks generalizing poll w with
  | nil => simp [stream_chunks, cancelAt]
  | cons c rest ih =>
    rw [stream_chunks]
    simp only [cancelAt, Bool.false_eq_true, if_false]
    split
    · rfl
    · exact ih (poll + 1) (w + c)

theorem stream_chunks_total (chunks : List Nat) (poll w : Nat)
    (hpos : ∀ c ∈ chunks, c ≠ 0) :
    stream_chunks none chunks poll w = (w + chunks.sum, false) := by
  induction chunks generalizing poll w with
  | nil => simp [stream_chunks, cancelAt]
  | cons c rest ih =>
    have hc : c ≠ 0 := hpos c (by simp)
    have hrest : ∀ x ∈ rest, x ≠ 0 := fun x hx => hpos x (by simp [hx])
    rw [stream_chunks]
    simp only [cancelAt, Bool.false_eq_true, if_false]
    rw [if_neg hc, ih (poll + 1) (w + c) hrest]
    simp [Nat.add_assoc]

/-- C10: when a HEAD probe succeeds but the response has no Content-Length
header, the completeness check treats the remote size as 0 and accepts any
local size; an existing partial file is then recorded Success with zero
bytes transferred and no GET; the post-download check cannot produce a
Failure in that situation; and among HEAD outcomes without a Content-Length
the check returns false exactly when the HEAD request raised. -/
theorem head_without_content_length (file_url save_dir : String) (env : DownloadEnv)
    (n : Nat) (chunks : List Nat) :
    is_file_complete (some none) n = true ∧
    (env.localSize = some n → env.headPre = some none →
      (download_file file_url save_dir env).outcome = .success ∧
      (download_file file_url save_dir env).getIssued = false ∧
      (download_file file_url save_dir env).bytesWritten = 0 ∧
      (download_file file_url save_dir env).record =
        some ("成功", path_join save_dir (derive_file_name file_url))) ∧
    (env.headPost = some none → env.body = some chunks → env.cancelFrom = none →
      (download_file file_url save_dir env).outcome ≠ .failure) ∧
    (∀ (head : Option (Option Nat)) (ls : Nat), head = none ∨ head = some none →
      (is_file_complete head ls = false ↔ head = none)) := by
  refine ⟨by simp [is_file_complete]; omega, ?_, ?_, ?_⟩
  · intro hloc hhead
    have hc : is_file_complete env.headPre n = true := by
      simp [is_file_complete, hhead]
      omega
    simp [download_file, hloc, hc]
  · intro hpost hbody hcf
    by_cases hpre : (env.localSize.isSome &&
        is_file_complete env.headPre (env.localSize.getD 0)) = true
    · simp [download_file, hpre]
    · have hpre' : (env.localSize.isSome &&
          is_file_complete env.headPre (env.localSize.getD 0)) = false := by
        simpa using hpre
      rcases hsc : stream_chunks none chunks 0 0 with ⟨w, b⟩
      have hb : b = false := by
        have h2 := stream_chunks_no_cancel chunks 0 0
        rw [hsc] at h2
        exact h2
      subst hb
      have hcomp : is_file_complete env.headPost (env.localSize.getD 0 + w) = true := by
        simp [is_file_complete, hpost]
        omega
      simp [download_file, hpre', hbody, hcf, hsc, hcomp]
  · intro head ls h
    rcases h with rfl | rfl
    · simp [is_file_complete]
    · simp [is_file_complete]
      omega

/-- C10 witness: a 3-byte partial against a header-less HEAD response. -/
theorem head_without_content_length_witness :
    ((({ localSize := some 3, headPre := some none, body := some [7],
         headPost := some none, cancelFrom := none } : DownloadEnv).localSize = some 3) ∧
      (download_file "http://h/d/f.bin" "D"
        { localSize := some 3, headPre := some none, body := some [7],
          headPost := some none, cancelFrom := none }).outcome = DLOutcome.success) ∧
    (download_file "http://h/d/f.bin" "D"
        { localSize := some 3, headPre := some none, body := some [7],
          headPost := some none, cancelFrom := none }).outcome ≠ DLOutcome.failure :=
  ⟨⟨rfl,
    ((head_without_content_length "http://h/d/f.bin" "D"
      { localSize := some 3, headPre := some none, body := some [7],
        headPost := some none, cancelFrom := none } 3 [7]).2.1 rfl rfl).1⟩,
   (head_without_content_length "http://h/d/f.bin" "D"
      { localSize := some 3, headPre := some none, body := some [7],
        headPost := some none, cancelFrom := none } 3 [7]).2.2.1 rfl rfl rfl⟩

/-- C2: past the pre-transfer completeness check, a resume offset `P > 0`
puts `Range: bytes=P-` on the GET and opens the local file in append mode,
while `P = 0` sends no Range header and opens in fresh-write mode; and when
the server supplies exactly the remaining bytes of a `T`-byte remote file
and no cancellation occurs, the final local size is `T`. -/
theorem download_resume_range (file_url save_dir : String) (env : DownloadEnv)
    (P T : Nat) (chunks : List Nat)
    (hpre : (env.localSize.isSome &&
      is_file_complete env.headPre (env.localSize.getD 0)) = false) :
    (env.localSize = some P → 0 < P →
      (download_file file_url save_dir env).rangeHeader = some P ∧
      (download_file file_url save_dir env).openedAppend = some true) ∧
    (env.localSize.getD 0 = 0 →
      (download_file file_url save_dir env).rangeHeader = none ∧
      (download_file file_url save_dir env).openedAppend = some false) ∧
    (env.body = some chunks → env.cancelFrom = none → (∀ c ∈ chunks, c ≠ 0) →
      env.localSize.getD 0 + chunks.sum = T →
      (download_file file_url save_dir env).finalSize = T ∧
      (download_file file_url save_dir env).bytesWritten = chunks.sum) := by
  refine ⟨?_, ?_, ?_⟩
  · intro hloc hP
    simp only [hloc, Option.isSome_some, Bool.true_and, Option.getD_some] at hpre
    cases hb : env.body with
    | none => simp [download_file, hloc, hpre, hb, hP]
    | some cs =>
      rcases hsc : stream_chunks env.cancelFrom cs 0 0 with ⟨w, b⟩
      cases b <;> simp [download_file, hloc, hpre, hb, hsc, hP, apply_ite]
  · intro hz
    rw [hz] at hpre
    cases hb : env.body with
    | none => simp [download_file, hpre, hb, hz]
    | some cs =>
      rcases hsc : stream_chunks env.cancelFrom cs 0 0 with ⟨w, b⟩
      cases b <;> simp [download_file, hpre, hb, hsc, hz, apply_ite]
  · intro hbody hcf hpos hsum
    subst hsum
    have hst : stream_chunks none chunks 0 0 = (chunks.sum, false) := by
      simpa using stream_chunks_total chunks 0 0 hpos
    by_cases hcomp : is_file_complete env.headPost (env.localSize.getD 0 + chunks.sum) = true
    · simp [download_file, hpre, hbody, hcf, hst, hcomp]
    · have hcomp' : is_file_complete env.headPost
          (env.localSize.getD 0 + chunks.sum) = false := by simpa using hcomp
      simp [download_file, hpre, hbody, hcf, hst, hcomp']

/-- C2 witness: resuming at 5000 of 9000 bytes. -/
theorem download_resume_range_witness :
    (download_file "http://h/d/f.bin" "D"
      { localSize := some 5000, headPre := some (some 9000), body := some [1000, 3000],
        headPost := some (some 9000), cancelFrom := none }).rangeHeader = some 5000 ∧
    (download_file "http://h/d/f.bin" "D"
      { localSize := some 5000, headPre := some (some 9000), body := some [1000, 3000],
        headPost := some (some 9000), cancelFrom := none }).finalSize = 9000 :=
  ⟨((download_resume_range "http://h/d/f.bin" "D"
      { localSize := some 5000, headPre := some (some 9000), body := some [1000, 3000],
        headPost := some (some 9000), cancelFrom := none } 5000 9000 [1000, 3000]
      (by decide)).1 rfl (by decide)).1,
   ((download_resume_range "http://h/d/f.bin" "D"
      { localSize := some 5000, headPre := some (some 9000), body := some [1000, 3000],
        headPost := some (some 9000), cancelFrom := none } 5000 9000 [1000, 3000]
      (by decide)).2.2 rfl rfl (by decide) (by decide)).1⟩

/-- C3: a completed, uncancelled stream whose final size still fails the
HEAD completeness re-check ends in Failure with the partial bytes kept on
disk; and over every run, Success is recorded with the local path, Failure
with an empty local path, and cancellation leaves no record. -/
theorem download_verify_and_record (file_url save_dir : String) (env : DownloadEnv)
    (chunks : List Nat) :
    ((env.localSize.isSome &&
        is_file_complete env.headPre (env.localSize.getD 0)) = false →
      env.body = some chunks → env.cancelFrom = none → (∀ c ∈ chunks, c ≠ 0) →
      is_file_complete env.headPost (env.localSize.getD 0 + chunks.sum) = false →
      (download_file file_url save_dir env).outcome = .failure ∧
      (download_file file_url save_dir env).finalSize =
        env.localSize.getD 0 + chunks.sum ∧
      (download_file file_url save_dir env).bytesWritten = chunks.sum) ∧
    ((download_file file_url save_dir env).outcome = .success ↔
      (download_file file_url save_dir env).record =
        some ("成功", path_join save_dir (derive_file_name file_url))) ∧
    ((download_file file_url save_dir env).outcome = .failure ↔
      (download_file file_url save_dir env).record = some ("失败", "")) ∧
    ((download_file file_url save_dir env).outcome = .cancelled ↔
      (download_file file_url save_dir env).record = none) := by
  have hcases :
      ((download_file file_url save_dir env).outcome = .success ∧
        (download_file file_url save_dir env).record =
          some ("成功", path_join save_dir (derive_file_name file_url))) ∨
      ((download_file file_url save_dir env).outcome = .failure ∧
        (download_file file_url save_dir env).record = some ("失败", "")) ∨
      ((download_file file_url save_dir env).outcome = .cancelled ∧
        (download_file file_url save_dir env).record = none) := by
    by_cases hpre : (env.localSize.isSome &&
        is_file_complete env.headPre (env.localSize.getD 0)) = true
    · exact Or.inl (by simp [download_file, hpre])
    · have hpre' : (env.localSize.isSome &&
          is_file_complete env.headPre (env.localSize.getD 0)) = false := by
        simpa using hpre
      cases hb : env.body with
      | none => exact Or.inr (Or.inl (by simp [download_file, hpre', hb]))
      | some cs =>
        rcases hsc : stream_chunks env.cancelFrom cs 0 0 with ⟨w, b⟩
        cases b
        · by_cases hcomp : is_file_complete env.headPost (env.localSize.getD 0 + w) = true
          · exact Or.inl (by simp [download_file, hpre', hb, hsc, hcomp])
          · have hcomp' : is_file_complete env.headPost
                (env.localSize.getD 0 + w) = false := by simpa using hcomp
            exact Or.inr (Or.inl (by simp [download_file, hpre', hb, hsc, hcomp']))
        · exact Or.inr (Or.inr (by simp [download_file, hpre', hb, hsc]))
  refine ⟨?_, ?_, ?_, ?_⟩
  · intro hpre hbody hcf hpos hcomp
    have hst : stream_chunks none chunks 0 0 = (chunks.sum, false) := by
      simpa using stream_chunks_total chunks 0 0 hpos
    simp [download_file, hpre, hbody, hcf, hst, hcomp]
  · rcases hcases with ⟨h1, h2⟩ | ⟨h1, h2⟩ | ⟨h1, h2⟩ <;> rw [h1, h2] <;> simp
  · rcases hcases with ⟨h1, h2⟩ | ⟨h1, h2⟩ | ⟨h1, h2⟩ <;> rw [h1, h2] <;> simp
  · rcases hcases with ⟨h1, h2⟩ | ⟨h1, h2⟩ | ⟨h1, h2⟩ <;> rw [h1, h2] <;> simp

/-- C3 witness: a stream that delivers too few bytes (3000 of 9000 needed)
fails the re-check and is recorded as Failure with an empty path. -/
theorem download_verify_and_record_witness :
    (download_file "http://h/d/f.bin" "D"
      { localSize := some 5000, headPre := some (some 9000), body := some [1000],
        headPost := some (some 9000), cancelFrom := none }).outcome = DLOutcome.failure ∧
    (download_file "http://h/d/f.bin" "D"
      { localSize := some 5000, headPre := some (some 9000), body := some [1000],
        headPost := some (some 9000), cancelFrom := none }).record = some ("失败", "") := by
  have h := (download_verify_and_record "http://h/d/f.bin" "D"
    { localSize := some 5000, headPre := some (some 9000), body := some [1000],
      headPost := some (some 9000), cancelFrom := none } [1000]).1
    (by decide) rfl rfl (by decide) (by decide)
  have h2 := (download_verify_and_record "http://h/d/f.bin" "D"
    { localSize := some 5000, headPre := some (some 9000), body := some [1000],
      headPost := some (some 9000), cancelFrom := none } [1000]).2.2.1
  exact ⟨h.1, h2.mp h.1⟩

theorem submit_tasks_eq_take {α : Type} (cf : Option Nat) (items : List α) (i : Nat) :
    submit_tasks cf items i = items.take (firstCancel cf i items.length) := by
  induction items generalizing i with
  | nil => simp [submit_tasks, firstCancel]
  | cons x xs ih =>
    rw [submit_tasks, List.length_cons, firstCancel]
    split
    · rfl
    · rw [List.take_succ_cons, ih (i + 1)]

theorem process_results_eq_take (cf : Option Nat) (results : List TaskResult) (i : Nat) :
    process_results cf results i =
      (countOk (results.take (firstCancel cf i results.length)),
       countErr (results.take (firstCancel cf i results.length)),
       failMsgs (results.take (firstCancel cf i results.length))) := by
  induction results generalizing i with
  | nil => simp [process_results, firstCancel, countOk, countErr, failMsgs]
  | cons r rest ih =>
    rw [process_results, List.length_cons, firstCancel]
    split
    · simp [countOk, countErr, failMsgs]
    · rw [List.take_succ_cons, ih (i + 1)]
      cases r <;> simp [countOk, countErr, failMsgs]

theorem firstCancel_le (cf : Option Nat) (i n : Nat) : firstCancel cf i n ≤ n := by
  induction n generalizing i with
  | zero => simp [firstCancel]
  | succ m ih =>
    rw [firstCancel]
    split
    · omega
    · have := ih (i + 1)
      omega

theorem firstCancel_some (k i n : Nat) :
    firstCancel (some k) i n = min (k - i) n := by
  induction n generalizing i with
  | zero => simp [firstCancel]
  | succ m ih =>
    rw [firstCancel]
    simp only [cancelAt, decide_eq_true_eq]
    split
    · omega
    · rw [ih (i + 1)]
      omega

theorem cancelAt_false_of_lt_firstCancel (cf : Option Nat) (n : Nat) :
    ∀ i j : Nat, j < firstCancel cf i n → cancelAt cf (i + j) = false := by
  induction n with
  | zero => intro i j h; simp [firstCancel] at h
  | succ m ih =>
    intro i j h
    rw [firstCancel] at h
    by_cases hc : cancelAt cf i = true
    · rw [if_pos hc] at h
      omega
    · rw [if_neg hc] at h
      cases j with
      | zero => simpa using hc
      | succ j' =>
        have := ih (i + 1) j' (by omega)
        have harith : i + (j' + 1) = (i + 1) + j' := by omega
        rw [harith]
        exact this

/-- C4: a cancellation flag first seen set at submission poll `k` cuts the
submitted tasks to the first `min k N`; the tallies are computed over
exactly the prefix of completed results handled before the flag was seen,
so already-tallied outcomes are retained; a result produced by a
cancelled-mid-flight task (whose presence implies the flag was already set
at its poll) is never tallied as success or failure; and a cancelled
`_download_file` run writes no history record. -/
theorem batch_cancel_spec (items : List String) (results : List TaskResult)
    (k : Nat) (cfR : Option Nat) (file_url save_dir : String) (env : DownloadEnv)
    (hcr : ∀ (i : Nat) (hi : i < results.length),
      is_cancel_result (results.get ⟨i, hi⟩) = true → cancelAt cfR i = true) :
    submit_tasks (some k) items 0 = items.take (min k items.length) ∧
    (submit_tasks (some k) items 0).length ≤ k ∧
    (∃ j, j ≤ results.length ∧
      process_results cfR results 0 =
        (countOk (results.take j), countErr (results.take j), failMsgs (results.take j)) ∧
      ∀ r ∈ results.take j, is_cancel_result r = false) ∧
    ((download_file file_url save_dir env).outcome = .cancelled →
      (download_file file_url save_dir env).record = none) := by
  have hsub : submit_tasks (some k) items 0 = items.take (min k items.length) := by
    rw [submit_tasks_eq_take, firstCancel_some]
    simp
  refine ⟨hsub, ?_, ?_, ?_⟩
  · rw [hsub, List.length_take]
    omega
  · refine ⟨firstCancel cfR 0 results.length, firstCancel_le cfR 0 results.length,
      process_results_eq_take cfR results 0, ?_⟩
    intro r hr
    obtain ⟨⟨m, hm⟩, hget⟩ := List.mem_iff_get.mp hr
    have hmlen : m < (results.take (firstCancel cfR 0 results.length)).length := hm
    rw [List.length_take] at hmlen
    have hmj : m < firstCancel cfR 0 results.length := lt_of_lt_of_le hmlen (min_le_left _ _)
    have hmres : m < results.length := lt_of_lt_of_le hmlen (min_le_right _ _)
    have hgr : results.get ⟨m, hmres⟩ = r := by
      rw [← hget, List.get_take results hmres hmj]
    have hflag : cancelAt cfR (0 + m) = false :=
      cancelAt_false_of_lt_firstCancel cfR results.length 0 m hmj
    rw [Nat.zero_add] at hflag
    by_contra hcan
    have hcan' : is_cancel_result r = true := by
      cases hb : is_cancel_result r
      · exact absurd hb hcan
      · rfl
    have := hcr m hmres (by rw [hgr]; exact hcan')
    rw [hflag] at this
    exact Bool.false_ne_true this
  · intro hco
    by_cases hpre : (env.localSize.isSome &&
        is_file_complete env.headPre (env.localSize.getD 0)) = true
    · simp [download_file, hpre] at hco
    · have hpre' : (env.localSize.isSome &&
          is_file_complete env.headPre (env.localSize.getD 0)) = false := by
        simpa using hpre
      cases hb : env.body with
      | none => simp [download_file, hpre', hb] at hco
      | some cs =>
        rcases hsc : stream_chunks env.cancelFrom cs 0 0 with ⟨w, b⟩
        cases b
        · by_cases hcomp : is_file_complete env.headPost (env.localSize.getD 0 + w) = true
          · simp [download_file, hpre', hb, hsc, hcomp] at hco
          · have hcomp' : is_file_complete env.headPost
                (env.localSize.getD 0 + w) = false := by simpa using hcomp
            simp [download_file, hpre', hb, hsc, hcomp'] at hco
        · simp [download_file, hpre', hb, hsc]

/-- C4 witness: four tasks with the flag set at submission poll 2; three
results whose third is a cancellation; a download cancelled at poll 0. -/
theorem batch_cancel_spec_witness :
    submit_tasks (some 2) ["a", "b", "c", "d"] 0 =
      ["a", "b", "c", "d"].take (min 2 ["a", "b", "c", "d"].length) ∧
    (download_file "http://h/d/f.bin" "D"
      { localSize := none, headPre := none, body := some [5, 5],
        headPost := some (some 10), cancelFrom := some 0 }).outcome = DLOutcome.cancelled ∧
    (download_file "http://h/d/f.bin" "D"
      { localSize := none, headPre := none, body := some [5, 5],
        headPost := some (some 10), cancelFrom := some 0 }).record = none :=
  ⟨(batch_cancel_spec ["a", "b", "c", "d"]
      [.ok "a", .err "b" "boom", .err "c" "下载已取消"] 2 (some 2)
      "http://h/d/f.bin" "D"
      { localSize := none, headPre := none, body := some [5, 5],
        headPost := some (some 10), cancelFrom := some 0 }
      (by decide)).1,
   by decide,
   (batch_cancel_spec ["a", "b", "c", "d"]
      [.ok "a", .err "b" "boom", .err "c" "下载已取消"] 2 (some 2)
      "http://h/d/f.bin" "D"
      { localSize := none, headPre := none, body := some [5, 5],
        headPost := some (some 10), cancelFrom := some 0 }
      (by decide)).2.2.2 (by decide)⟩

theorem foldl_replace_eq_map (cs : List Char) (s : List Char) :
    cs.foldl (fun acc c => acc.map (fun x => if x = c then '_' else x)) s =
      s.map (fun x => cs.foldl (fun y c => if y = c then '_' else y) x) := by
  induction cs generalizing s with
  | nil => simp
  | cons c rest ih =>
    simp only [List.foldl_cons]
    rw [ih, List.map_map]
    rfl

theorem foldl_replace_char (x : Char) :
    INVALID_CHARS.foldl (fun y c => if y = c then '_' else y) x =
      if INVALID_CHARS.contains x then '_' else x := by
  by_cases hx : INVALID_CHARS.contains x = true
  · have hmem : x ∈ INVALID_CHARS := by simpa using hx
    rw [if_pos hx]
    simp only [INVALID_CHARS, show "/\\:*?\"<>|".data =
      ['/', '\\', ':', '*', '?', '"', '<', '>', '|'] from rfl, List.mem_cons,
      List.not_mem_nil, or_false] at hmem
    rcases hmem with rfl | rfl | rfl | rfl | rfl | rfl | rfl | rfl | rfl <;> rfl
  · have hx' : INVALID_CHARS.contains x = false := by simpa using hx
    rw [if_neg hx]
    have hne : x ∉ INVALID_CHARS := fun hmem => hx (by simpa using hmem)
    simp only [INVALID_CHARS, show "/\\:*?\"<>|".data =
      ['/', '\\', ':', '*', '?', '"', '<', '>', '|'] from rfl, List.mem_cons,
      List.not_mem_nil, or_false, not_or] at hne
    obtain ⟨h1, h2, h3, h4, h5, h6, h7, h8, h9⟩ := hne
    simp [INVALID_CHARS, show "/\\:*?\"<>|".data =
      ['/', '\\', ':', '*', '?', '"', '<', '>', '|'] from rfl,
      h1, h2, h3, h4, h5, h6, h7, h8, h9]

theorem sanitize_name_eq_map (s : List Char) :
    sanitize_name s = s.map (fun c => if INVALID_CHARS.contains c then '_' else c) := by
  unfold sanitize_name
  rw [foldl_replace_eq_map]
  exact List.map_congr_left (fun x _ => foldl_replace_char x)

theorem segments_reverse_getD (l : List (List Char)) (h : 2 ≤ l.length) :
    l.reverse.getD 1 [] = l.getD (l.length - 2) [] := by
  simp only [List.getD_eq_getElem?_getD]
  rw [List.getElem?_reverse (by omega)]
  have h2 : l.length - 1 - 1 = l.length - 2 := by omega
  rw [h2]

theorem file_task_dest_eq (dd url : String) (h : 2 ≤ (url_segments url).length) :
    file_task_dest dd url = path_join dd (String.mk (spec_group_name url)) := by
  unfold file_task_dest spec_group_name
  rw [if_pos h, segments_reverse_getD _ h, sanitize_name_eq_map]

/-- C9: for a File task whose URL has at least two non-empty
slash-separated segments, the download destination is the configured
download directory joined with a folder named by the second-to-last
segment, percent-decoded and with illegal filesystem characters replaced
by `_`; in particular the destination depends only on that one segment —
two URLs sharing it land in the same folder — not on the full remote
path. -/
theorem file_task_dest_spec (dd u1 u2 : String)
    (h1 : 2 ≤ (url_segments u1).length) :
    file_task_dest dd u1 = path_join dd (String.mk (spec_group_name u1)) ∧
    (2 ≤ (url_segments u2).length →
      (url_segments u1).getD ((url_segments u1).length - 2) [] =
        (url_segments u2).getD ((url_segments u2).length - 2) [] →
      file_task_dest dd u1 = file_task_dest dd u2) := by
  refine ⟨file_task_dest_eq dd u1 h1, ?_⟩
  intro h2 hseg
  rw [file_task_dest_eq dd u1 h1, file_task_dest_eq dd u2 h2]
  unfold spec_group_name
  rw [hseg]

/-- C9 witness: two URLs from different remote branches sharing the parent
segment `p%20q` land in the same sanitized grouping folder. -/
theorem file_task_dest_spec_witness :
    file_task_dest "D" "http://h/a/p%20q/f1.fits" =
      path_join "D" (String.mk (spec_group_name "http://h/a/p%20q/f1.fits")) ∧
    file_task_dest "D" "http://h/a/p%20q/f1.fits" =
      file_task_dest "D" "http://h/b/x/p%20q/f2.fits" ∧
    file_task_dest "D" "http://h/a/p%20q/f1.fits" = "D/p q" :=
  ⟨(file_task_dest_spec "D" "http://h/a/p%20q/f1.fits" "http://h/b/x/p%20q/f2.fits"
      (by decide)).1,
   (file_task_dest_spec "D" "http://h/a/p%20q/f1.fits" "http://h/b/x/p%20q/f2.fits"
      (by decide)).2 (by decide) (by decide),
   by decide⟩

end XOSS
